import Mathlib

/-!
# Verification of the PhiFlow point-cloud field module

Shallow embedding of `src/phi/field/_point_cloud.py` and of the
field-lookup path of `src/phi/app/_console/_console_gui.py`.

Conventions:
* Machine floats are modelled by `ℚ` (the claims under study are structural,
  not about rounding error of binary floating point).
* A multi-dimensional coordinate / index vector is a `List ℚ` / `List ℤ`.
* Fallible Python code is embedded as `Except PyErr _`; the constructors of
  `PyErr` record which Python exception class each abstract spec error name
  corresponds to.
* External collaborators (the `phi.math` array backend, `phi.geom`
  geometry) are not under `src/`; each such definition carries a doc
  comment starting `Modelled from the spec:`.
-/

/-- Python exception classes raised by the embedded code, under the spec's
abstract error names where the spec names them:
`unsupportedGeometry` models Python `NotImplementedError`,
`shapeMismatch` models Python `ValueError`,
`fieldNotFound` models Python `KeyError`,
`nameError n` models Python `NameError` for the unbound name `n`,
`indexError` models Python `IndexError`. -/
inductive PyErr where
  | nameError (n : String)
  | unsupportedGeometry
  | shapeMismatch
  | fieldNotFound
  | indexError
deriving DecidableEq, Repr

deriving instance DecidableEq for Except

/-- Modelled from the spec: geometry primitives (boxes) are external
(`phi.geom.Box`); the core only needs bounds and the `global_to_local`
map. A box is an axis-aligned product of intervals `[lower i, upper i]`. -/
structure Box where
  lower : List ℚ
  upper : List ℚ
deriving DecidableEq, Repr

/-- Modelled from the spec: `globalToLocal(point) -> localCoordinate`;
the box-local coordinate of a global point, elementwise
`(x - lower) / (upper - lower)`. -/
def Box.global_to_local (b : Box) (p : List ℚ) : List ℚ :=
  List.zipWith (fun x lu => (x - lu.1) / (lu.2 - lu.1)) p (b.lower.zip b.upper)

/-- Modelled from the spec: the Extrapolation policy is a variant value
(`ZERO` plus extensible others, e.g. a constant value or periodic wrap);
`phi.math.extrapolation` is an external collaborator. -/
inductive Extrapolation where
  | zero
  | constant (c : ℚ)
  | periodic
deriving DecidableEq, Repr

/-- The values container of a `SampledField`: either one scalar broadcast
over all elements (Python `values=1`) or one value per element. -/
inductive Values where
  | scalar (c : ℚ)
  | perElement (vs : List ℚ)
deriving DecidableEq, Repr

/-- Modelled from the spec: a Geometry owns a set of elements, each with a
position (`self.points` = the element center positions); externally owned
by `phi.geom`. -/
structure Geometry where
  points : List (List ℚ)
deriving DecidableEq, Repr

/-- `PointCloud.__init__`: a `SampledField` (elements, values,
extrapolation) plus the `add_overlapping` duplicate-resolution flag. -/
structure PointCloud where
  elements : Geometry
  values : Values
  extrapolation : Extrapolation
  add_overlapping : Bool
deriving DecidableEq, Repr

/-- `phi.field._grid.CenteredGrid` (not under `src/`): per the spec, a
dense value array over a box, carrying an Extrapolation. Only its shape as
a constructor target matters here. -/
structure CenteredGrid where
  data : List ℚ
  box : Box
  extrapolation : Extrapolation
deriving DecidableEq, Repr

/-- Modelled from the spec: backend elementwise `math.round` (round to the
nearest integer), returning a float-valued array as numpy does. -/
def mathRound (q : ℚ) : ℚ := ((round q : ℤ) : ℚ)

/-- Modelled from the spec: backend `math.to_int`, float-to-int cast
(truncation toward zero). -/
def mathToInt (q : ℚ) : ℤ := if 0 ≤ q then ⌊q⌋ else ⌈q⌉

/-- Line 40 of `_point_cloud.py`, for one element position `p`:
`math.to_int(math.round(box.global_to_local(p) * resolution))`,
the elementwise product with the resolution vector taken before rounding. -/
def closest_index (box : Box) (resolution : List ℕ) (p : List ℚ) : List ℤ :=
  (List.zipWith (fun c r => c * r) (box.global_to_local p)
    (resolution.map (fun n => (n : ℚ)))).map (fun x => mathToInt (mathRound x))

/-- The destination-cell index exactly as the spec words it: map the global
position into the box's local frame, scale by `R` elementwise, round to the
nearest integer index vector. -/
def specDestIndex (box : Box) (R : List ℕ) (p : List ℚ) : List ℤ :=
  List.zipWith (fun c r => round (c * r)) (box.global_to_local p)
    (R.map (fun n => (n : ℚ)))

/-- `PointCloud._grid_scatter` (lines 32–42). Line 40 computes
`closest_index` for every element; line 41 then evaluates
`math.scatter(self.sample_points, valid_indices, self.values, shape,
duplicates_handling=self.mode)`. The bare names `valid_indices` and
`shape` are bound nowhere in the function, the module, or its imports, and
no attribute `mode` is ever assigned (the constructor stores
`_add_overlapping`); the leftmost unbound bare name, `valid_indices`,
raises Python `NameError` before `math.scatter` is entered, so line 42 is
unreachable. -/
def grid_scatter (pc : PointCloud) (box : Box) (resolution : List ℕ) :
    Except PyErr CenteredGrid :=
  let _closest_index := pc.elements.points.map (closest_index box resolution)
  Except.error (PyErr.nameError "valid_indices")

/-- The target support passed to `sample_at`: either a `GridCell`
descriptor (a regular grid, carrying bounds and resolution) or any other
support kind (`isinstance(points, GridCell)` fails). -/
inductive TargetSupport where
  | gridCell (bounds : Box) (resolution : List ℕ)
  | other (pts : List (List ℚ))
deriving DecidableEq, Repr

/-- `PointCloud.sample_at` (lines 26–30): a `GridCell` target delegates to
`_grid_scatter(points.bounds, points.resolution)`; every other target
raises `NotImplementedError`. -/
def sample_at (pc : PointCloud) (points : TargetSupport) :
    Except PyErr CenteredGrid :=
  match points with
  | TargetSupport.gridCell bounds resolution => grid_scatter pc bounds resolution
  | TargetSupport.other _ => Except.error PyErr.unsupportedGeometry

/-- `PointCloud.mask` (lines 44–45):
`PointCloud(self._elements, 1, math.extrapolation.ZERO, add_overlapping=False)`. -/
def mask (pc : PointCloud) : PointCloud :=
  { elements := pc.elements
    values := Values.scalar 1
    extrapolation := Extrapolation.zero
    add_overlapping := false }

/-- One batch entry of the `density` tensor, already restricted to channel
0 of the trailing axis (the code reads `density[batch, ..., 0]`): the
cells in row-major order, each as (multi-index, value). -/
def DensityBatch : Type := List (List ℕ × ℚ)

/-- The batched `density` argument: the per-batch data, plus the leading
entry of `math.staticshape(density)` — `some n` when the static shape is
known, `none` when the leading dimension is dynamic. -/
structure DensityTensor where
  batches : List DensityBatch
  staticBatch : Option ℕ

/-- Modelled from the spec: backend boolean masking
`math.where(density[batch, ..., 0] > 0)` — the multi-indices of the cells
whose value is `> 0`, kept in row-major order. -/
def mathWhere (b : DensityBatch) : List (List ℕ) :=
  (b.filter (fun c => 0 < c.2)).map Prod.fst

/-- Modelled from the spec: backend `math.to_float` on an integer index
array. -/
def indicesToFloat (idxs : List (List ℕ)) : List (List ℚ) :=
  idxs.map (fun idx => idx.map (fun n => (n : ℚ)))

/-- The `distribution` argument; the `assert distribution in ('center',
'uniform')` on line 59 always passes for these two variants. -/
inductive Distribution where
  | center
  | uniform
deriving DecidableEq, Repr

/-- One repetition of the inner loop (lines 68–72): for `'center'`,
`indices + 0.5`; for `'uniform'`, `indices +
math.random_uniform(math.shape(indices))`. The random sample is an
oracle `rand batch rep point axis`; `random_uniform` always returns an
array of exactly the requested shape, which the `zipIdx`-driven
construction reproduces. -/
def repetitionPoints (dist : Distribution) (rand : ℕ → ℕ → ℕ → ℕ → ℚ)
    (batch rep : ℕ) (indices : List (List ℚ)) : List (List ℚ) :=
  match dist with
  | Distribution.center => indices.map (fun idx => idx.map (fun x => x + 1/2))
  | Distribution.uniform =>
      indices.enum.map (fun pi =>
        pi.2.enum.map (fun ai => ai.2 + rand batch rep pi.1 ai.1))

/-- The body of the per-batch loop (lines 63–73) for one batch index:
`indices = to_float(where(density[batch, ..., 0] > 0))`, then
`particles_per_cell` repetitions concatenated along axis 0.
Indexing `density[batch]` out of range raises `IndexError`. -/
def batchPoints (density : DensityTensor) (particles_per_cell : ℕ)
    (dist : Distribution) (rand : ℕ → ℕ → ℕ → ℕ → ℚ) (batch : ℕ) :
    Except PyErr (List (List ℚ)) :=
  match density.batches[batch]? with
  | none => Except.error PyErr.indexError
  | some b =>
      let indices := indicesToFloat (mathWhere b)
      Except.ok (((List.range particles_per_cell).map
        (fun rep => repetitionPoints dist rand batch rep indices)).flatten)

/-- Builds `index_array` as the Python `for batch in range(batch_size)`
loop does, propagating the first raised error. -/
def collectBatches (f : ℕ → Except PyErr (List (List ℚ))) :
    List ℕ → Except PyErr (List (List (List ℚ)))
  | [] => Except.ok []
  | i :: is =>
      match f i, collectBatches f is with
      | Except.ok a, Except.ok as => Except.ok (a :: as)
      | Except.error e, _ => Except.error e
      | Except.ok _, Except.error e => Except.error e

/-- Modelled from the spec: backend `math.stack` along a new leading axis;
it requires every stacked array to have the same leading length and raises
`ValueError` otherwise (the caller re-raises that `ValueError` with its
own message, so both routes are `shapeMismatch`). -/
def mathStack (ls : List (List (List ℚ))) :
    Except PyErr (List (List (List ℚ))) :=
  match ls with
  | [] => Except.error PyErr.shapeMismatch
  | l :: rest =>
      if rest.all (fun x => x.length = l.length) then Except.ok (l :: rest)
      else Except.error PyErr.shapeMismatch

/-- `_distribute_points` (lines 51–78): `batch_size =
staticshape(density)[0] if staticshape(density)[0] is not None else 1`;
per-batch point lists are collected for `batch in range(batch_size)` and
stacked; a `ValueError` from stacking is re-raised as `ValueError`. -/
def distribute_points (density : DensityTensor) (particles_per_cell : ℕ)
    (dist : Distribution) (rand : ℕ → ℕ → ℕ → ℕ → ℚ) :
    Except PyErr (List (List (List ℚ))) :=
  match collectBatches (batchPoints density particles_per_cell dist rand)
      (List.range (density.staticBatch.getD 1)) with
  | Except.error e => Except.error e
  | Except.ok index_array => mathStack index_array

/-- Seed-then-scatter round trip: `_distribute_points(density, 1,
'center')`, the batch-0 points wrapped as a `PointCloud` of occupancy
value 1 with additive duplicate mode, scattered back through
`_grid_scatter` onto the given box and resolution. -/
def seed_then_scatter (density : DensityTensor) (box : Box)
    (resolution : List ℕ) : Except PyErr CenteredGrid :=
  match distribute_points density 1 Distribution.center (fun _ _ _ _ => 0) with
  | Except.error e => Except.error e
  | Except.ok batches =>
      match batches with
      | [] => Except.error PyErr.indexError
      | pts :: _ =>
          grid_scatter
            { elements := { points := pts }
              values := Values.scalar 1
              extrapolation := Extrapolation.zero
              add_overlapping := true } box resolution

/-- The application object seen by `ConsoleGui.draw`: the external field
registry behind `self.app.get_field` together with the
`self.app.fieldnames` listing. -/
structure ConsoleApp (F : Type) where
  fields : List (String × F)
  fieldnames : List String

/-- Modelled from the spec: the external field registry lookup
`self.app.get_field(name)` (`getField(name) -> Field`), raising `KeyError`
(the spec's `FieldNotFound`) when the name does not exist. -/
def get_field {F : Type} (app : ConsoleApp F) (n : String) : Except PyErr F :=
  match app.fields.lookup n with
  | some v => Except.ok v
  | none => Except.error PyErr.fieldNotFound

/-- Observable outcome of one `ConsoleGui.draw` call: printed
"Nothing to show.", printed the missing-field report (the missing name and
the available field names) and returned, or drew the resolved fields. -/
inductive DrawOutcome (F : Type) where
  | nothingToShow
  | fieldMissing (missing : String) (available : List String)
  | drew (values : List F)
deriving DecidableEq

/-- The `for n in field_names` loop of `draw` (lines 62–67): resolve the
requested names in order; the first lookup that raises `KeyError` stops
the loop with that name (the `except KeyError` clause). -/
def resolveFields {F : Type} (app : ConsoleApp F) :
    List String → Except String (List F)
  | [] => Except.ok []
  | n :: ns =>
      match get_field app n with
      | Except.ok v =>
          match resolveFields app ns with
          | Except.ok vs => Except.ok (v :: vs)
          | Except.error m => Except.error m
      | Except.error _ => Except.error n

/-- `ConsoleGui.draw` (lines 54–78). With `field_names=None` the names
come from the external `ordered_field_names` (passed in as
`orderedNames`), printing "Nothing to show." when empty and keeping at
most the first two otherwise. A failed registry lookup prints the missing
name together with `self.app.fieldnames` and returns. Otherwise rendering
proceeds on the resolved fields (terminal sizing, `at_centers`,
`vec_squared` and `heatmap` are external collaborators, abstracted as the
`drew` outcome). `draw` is a total function: every path returns. -/
def draw {F : Type} (app : ConsoleApp F) (orderedNames : List String)
    (field_names : Option (List String)) : DrawOutcome F :=
  match (match field_names with
         | none =>
             if orderedNames.length = 0 then none
             else some (if orderedNames.length > 2 then orderedNames.take 2
                        else orderedNames)
         | some ns => some ns) with
  | none => DrawOutcome.nothingToShow
  | some ns =>
      match resolveFields app ns with
      | Except.error m => DrawOutcome.fieldMissing m app.fieldnames
      | Except.ok vs => DrawOutcome.drew vs

theorem mathToInt_mathRound (x : ℚ) : mathToInt (mathRound x) = round x := by
  unfold mathToInt mathRound
  split
  · exact Int.floor_intCast _
  · exact Int.ceil_intCast _

/-- C2: for every target box, integer resolution vector and element
position, the destination cell index computed by line 40 of
`_grid_scatter` (`to_int(round(global_to_local(points) * resolution))`)
is exactly the elementwise nearest-integer rounding of the box-local
coordinate multiplied elementwise by the resolution. -/
theorem closest_index_eq_spec (box : Box) (R : List ℕ) (p : List ℚ) :
    closest_index box R p = specDestIndex box R p := by
  unfold closest_index specDestIndex
  rw [List.map_zipWith]
  simp [mathToInt_mathRound]

/-- C3: `sample_at` delegates to `_grid_scatter` (with the descriptor's
bounds and resolution) exactly when the target support is a `GridCell`,
and fails with `UnsupportedGeometry` (Python `NotImplementedError`) for
every other target-support kind, never falling back silently. -/
theorem sample_at_dispatch (pc : PointCloud) :
    (∀ bounds resolution,
        sample_at pc (TargetSupport.gridCell bounds resolution)
          = grid_scatter pc bounds resolution) ∧
    (∀ pts, sample_at pc (TargetSupport.other pts)
          = Except.error PyErr.unsupportedGeometry) :=
  ⟨fun _ _ => rfl, fun _ => rfl⟩

/-- C4: `mask` returns a new PointCloud with the same elements, the scalar
value 1, extrapolation ZERO and `add_overlapping = false`, regardless of
the original values, extrapolation and flag (the input `pc` itself is a
pure value and is unchanged). -/
theorem mask_produces_indicator (pc : PointCloud) :
    (mask pc).elements = pc.elements ∧
    (mask pc).values = Values.scalar 1 ∧
    (mask pc).extrapolation = Extrapolation.zero ∧
    (mask pc).add_overlapping = false :=
  ⟨rfl, rfl, rfl, rfl⟩

/-- C1 (code bug): scattering two points with values 1 and 2, both inside
the single cell of a 1-cell grid, raises `NameError` for the unbound name
`valid_indices` in both duplicate-resolution modes, instead of producing
the sum 3 (`add_overlapping = true`) or the mean 3/2
(`add_overlapping = false`). -/
theorem grid_scatter_nameError_both_modes :
    grid_scatter
        ⟨⟨[[(1:ℚ)/2], [(1:ℚ)/2]]⟩, Values.perElement [1, 2],
          Extrapolation.zero, true⟩ ⟨[0], [1]⟩ [1]
      = Except.error (PyErr.nameError "valid_indices") ∧
    grid_scatter
        ⟨⟨[[(1:ℚ)/2], [(1:ℚ)/2]]⟩, Values.perElement [1, 2],
          Extrapolation.zero, false⟩ ⟨[0], [1]⟩ [1]
      = Except.error (PyErr.nameError "valid_indices") :=
  ⟨rfl, rfl⟩

/-- C8 (code bug): `_grid_scatter` never returns a CenteredGrid — for
every point cloud, target box and resolution it raises `NameError`
(unbound name `valid_indices`), so line 42's
`CenteredGrid(scattered, box, self.extrapolation)` is unreachable. -/
theorem grid_scatter_never_returns_grid (pc : PointCloud) (box : Box)
    (R : List ℕ) :
    grid_scatter pc box R = Except.error (PyErr.nameError "valid_indices") :=
  rfl

/-- C7 (code bug): the seed-then-scatter round trip on a 1-cell occupancy
grid with its only cell active raises `NameError` at the scatter step
instead of reproducing the occupancy pattern. -/
theorem seed_then_scatter_nameError :
    seed_then_scatter ⟨[[([0], (1:ℚ))]], some 1⟩ ⟨[0], [1]⟩ [1]
      = Except.error (PyErr.nameError "valid_indices") :=
  rfl

theorem collectBatches_ok {f : ℕ → Except PyErr (List (List ℚ))} :
    ∀ {is : List ℕ} {rs}, collectBatches f is = Except.ok rs →
      rs.length = is.length ∧
      ∀ (j a : ℕ), is[j]? = some a → ∃ v, rs[j]? = some v ∧ f a = Except.ok v := by
  intro is
  induction is with
  | nil =>
      intro rs h
      unfold collectBatches at h
      cases h
      exact ⟨rfl, by intro j a ha; simp at ha⟩
  | cons i tl ih =>
      intro rs h
      unfold collectBatches at h
      cases hfi : f i <;> rw [hfi] at h
      · exact absurd h (by simp)
      case ok a =>
        cases hrec : collectBatches f tl <;> rw [hrec] at h
        · exact absurd h (by simp)
        case ok as =>
          cases h
          obtain ⟨hlen, hget⟩ := ih hrec
          refine ⟨by simp [hlen], ?_⟩
          intro j b hb
          cases j with
          | zero =>
              simp only [List.getElem?_cons_zero, Option.some.injEq] at hb
              exact ⟨a, by simp, by rw [← hb]; exact hfi⟩
          | succ j =>
              simp only [List.getElem?_cons_succ] at hb ⊢
              exact hget j b hb

theorem collectBatches_ok_of_forall {f : ℕ → Except PyErr (List (List ℚ))} :
    ∀ {is : List ℕ}, (∀ a ∈ is, ∃ v, f a = Except.ok v) →
      ∃ rs, collectBatches f is = Except.ok rs := by
  intro is
  induction is with
  | nil => exact fun _ => ⟨[], rfl⟩
  | cons i tl ih =>
      intro h
      obtain ⟨v, hv⟩ := h i (by simp)
      obtain ⟨rs, hrs⟩ := ih (fun a ha => h a (by simp [ha]))
      exact ⟨v :: rs, by unfold collectBatches; rw [hv, hrs]⟩

theorem batchPoints_eq_of_get {density : DensityTensor} {k : ℕ}
    {dist : Distribution} {rand : ℕ → ℕ → ℕ → ℕ → ℚ} {m : ℕ}
    {b : DensityBatch} (hb : density.batches[m]? = some b) :
    batchPoints density k dist rand m =
      Except.ok (((List.range k).map
        (fun rep => repetitionPoints dist rand m rep
          (indicesToFloat (mathWhere b)))).flatten) := by
  unfold batchPoints
  rw [hb]

theorem repetitionPoints_length (dist : Distribution)
    (rand : ℕ → ℕ → ℕ → ℕ → ℚ) (batch rep : ℕ) (indices : List (List ℚ)) :
    (repetitionPoints dist rand batch rep indices).length = indices.length := by
  cases dist <;> simp [repetitionPoints]

theorem batchPoints_length {density : DensityTensor} {k : ℕ}
    {dist : Distribution} {rand : ℕ → ℕ → ℕ → ℕ → ℚ} {m : ℕ}
    {b : DensityBatch} (hb : density.batches[m]? = some b) {a}
    (ha : batchPoints density k dist rand m = Except.ok a) :
    a.length = k * (mathWhere b).length := by
  rw [batchPoints_eq_of_get hb] at ha
  cases ha
  simp only [List.length_flatten, List.map_map]
  have hcomp : (List.length ∘ fun rep =>
      repetitionPoints dist rand m rep (indicesToFloat (mathWhere b)))
      = fun _ => (mathWhere b).length := by
    funext rep
    simp only [Function.comp_apply, repetitionPoints_length]
    simp [indicesToFloat]
  rw [hcomp, List.map_const', List.sum_replicate, List.length_range,
    smul_eq_mul]

theorem mathStack_ok {ia r : List (List (List ℚ))}
    (h : mathStack ia = Except.ok r) : r = ia := by
  unfold mathStack at h
  split at h
  · exact absurd h (by simp)
  · split at h
    · cases h; rfl
    · exact absurd h (by simp)

theorem mathStack_error_of_ne {ia : List (List (List ℚ))} {i j : ℕ}
    {vi vj : List (List ℚ)} (hvi : ia[i]? = some vi) (hvj : ia[j]? = some vj)
    (hne : vi.length ≠ vj.length) :
    mathStack ia = Except.error PyErr.shapeMismatch := by
  unfold mathStack
  split
  · rfl
  case h_2 l rest =>
    split
    case isTrue hall =>
      exfalso
      have hmem : ∀ x ∈ l :: rest, x.length = l.length := by
        intro x hx
        rcases List.mem_cons.mp hx with rfl | hx'
        · rfl
        · have := List.all_eq_true.mp hall x hx'
          exact of_decide_eq_true this
      have hmi : vi ∈ l :: rest := List.getElem?_mem hvi
      have hmj : vj ∈ l :: rest := List.getElem?_mem hvj
      exact hne ((hmem vi hmi).trans (hmem vj hmj).symm)
    case isFalse hall => rfl

theorem mem_batchPoints_center {density : DensityTensor} {k : ℕ}
    {rand : ℕ → ℕ → ℕ → ℕ → ℚ} {m : ℕ} {b : DensityBatch}
    (hb : density.batches[m]? = some b) {a} {p : List ℚ}
    (ha : batchPoints density k Distribution.center rand m = Except.ok a)
    (hp : p ∈ a) :
    ∃ idx ∈ mathWhere b, p = idx.map (fun n => (n : ℚ) + 1/2) := by
  rw [batchPoints_eq_of_get hb] at ha
  cases ha
  rw [List.mem_flatten] at hp
  obtain ⟨l, hl, hpl⟩ := hp
  rw [List.mem_map] at hl
  obtain ⟨rep, _, rfl⟩ := hl
  simp only [repetitionPoints, indicesToFloat, List.map_map,
    List.mem_map] at hpl
  obtain ⟨idx, hidx, rfl⟩ := hpl
  exact ⟨idx, hidx, by simp [List.map_map]⟩

/-- C5: when `_distribute_points` succeeds with `distribution='center'`
and `particles_per_cell = k`, every in-range batch index `i` has a batch
entry `b`, and the corresponding entry of the result holds exactly
`k * A` points, `A` being the number of active cells (value `> 0`) of `b`,
every point being its active cell's multi-index with `0.5` added to every
coordinate. -/
theorem distribute_points_center_spec (density : DensityTensor) (k : ℕ)
    (rand : ℕ → ℕ → ℕ → ℕ → ℚ) (r : List (List (List ℚ)))
    (hok : distribute_points density k Distribution.center rand = Except.ok r)
    (i : ℕ) (hi : i < density.staticBatch.getD 1) :
    ∃ b pts, density.batches[i]? = some b ∧ r[i]? = some pts ∧
      pts.length = k * (mathWhere b).length ∧
      ∀ p ∈ pts, ∃ idx ∈ mathWhere b, p = idx.map (fun n => (n : ℚ) + 1/2) := by
  unfold distribute_points at hok
  split at hok
  · exact absurd hok (by simp)
  case h_2 index_array hcb =>
    have hr : r = index_array := mathStack_ok hok
    obtain ⟨hlen, hget⟩ := collectBatches_ok hcb
    obtain ⟨v, hv, hfv⟩ := hget i i (by rw [List.getElem?_range hi])
    cases hbi : density.batches[i]? with
    | none =>
        rw [batchPoints] at hfv
        rw [hbi] at hfv
        exact absurd hfv (by simp)
    | some b =>
        refine ⟨b, v, rfl, by rw [hr]; exact hv, batchPoints_length hbi hfv, ?_⟩
        intro p hp
        exact mem_batchPoints_center hbi hfv hp

/-- Concrete instance for `distribute_points_center_spec`: a single batch
with active cells at indices 0 and 2 and `particles_per_cell = 2` yields
the four cell-center points, twice each. -/
theorem distribute_points_center_spec_witness :
    distribute_points ⟨[[([0], (1:ℚ)), ([1], 0), ([2], 2)]], some 1⟩ 2
        Distribution.center (fun _ _ _ _ => 0)
      = Except.ok [[[(1:ℚ)/2], [(5:ℚ)/2], [(1:ℚ)/2], [(5:ℚ)/2]]] ∧
    (0 < (⟨[[([0], (1:ℚ)), ([1], 0), ([2], 2)]], some 1⟩ :
        DensityTensor).staticBatch.getD 1) ∧
    (∃ b pts,
      (⟨[[([0], (1:ℚ)), ([1], 0), ([2], 2)]], some 1⟩ :
        DensityTensor).batches[0]? = some b ∧
      ([[[(1:ℚ)/2], [(5:ℚ)/2], [(1:ℚ)/2], [(5:ℚ)/2]]] :
        List (List (List ℚ)))[0]? = some pts ∧
      pts.length = 2 * (mathWhere b).length ∧
      ∀ p ∈ pts, ∃ idx ∈ mathWhere b, p = idx.map (fun n => (n : ℚ) + 1/2)) := by
  have hok : distribute_points ⟨[[([0], (1:ℚ)), ([1], 0), ([2], 2)]], some 1⟩ 2
      Distribution.center (fun _ _ _ _ => 0)
      = Except.ok [[[(1:ℚ)/2], [(5:ℚ)/2], [(1:ℚ)/2], [(5:ℚ)/2]]] := by
    norm_num [distribute_points, collectBatches, batchPoints,
      repetitionPoints, indicesToFloat, mathWhere, mathStack,
      List.range_succ]
  exact ⟨hok, by decide,
    distribute_points_center_spec ⟨[[([0], (1:ℚ)), ([1], 0), ([2], 2)]], some 1⟩
      2 (fun _ _ _ _ => 0) [[[(1:ℚ)/2], [(5:ℚ)/2], [(1:ℚ)/2], [(5:ℚ)/2]]]
      hok 0 (by decide)⟩

/-- C6: when two in-range batch indices have differing active-cell counts
(and `particles_per_cell` is positive, and the static batch size is
covered by the data), `_distribute_points` fails with `ShapeMismatch`
(Python `ValueError` from stacking, re-raised as `ValueError`); it never
returns a truncated or padded result. -/
theorem distribute_points_batch_mismatch (density : DensityTensor) (k : ℕ)
    (dist : Distribution) (rand : ℕ → ℕ → ℕ → ℕ → ℚ)
    (hk : 0 < k)
    (hcover : density.staticBatch.getD 1 ≤ density.batches.length)
    (i j : ℕ) (bi bj : DensityBatch)
    (hi : i < density.staticBatch.getD 1)
    (hj : j < density.staticBatch.getD 1)
    (hbi : density.batches[i]? = some bi)
    (hbj : density.batches[j]? = some bj)
    (hne : (mathWhere bi).length ≠ (mathWhere bj).length) :
    distribute_points density k dist rand
      = Except.error PyErr.shapeMismatch := by
  have hall : ∀ a ∈ List.range (density.staticBatch.getD 1),
      ∃ v, batchPoints density k dist rand a = Except.ok v := by
    intro a ha
    rw [List.mem_range] at ha
    have halen : a < density.batches.length := lt_of_lt_of_le ha hcover
    exact ⟨_, batchPoints_eq_of_get (List.getElem?_eq_getElem halen)⟩
  obtain ⟨rs, hrs⟩ := collectBatches_ok_of_forall hall
  obtain ⟨_, hget⟩ := collectBatches_ok hrs
  obtain ⟨vi, hvi, hfvi⟩ := hget i i (by rw [List.getElem?_range hi])
  obtain ⟨vj, hvj, hfvj⟩ := hget j j (by rw [List.getElem?_range hj])
  have hvne : vi.length ≠ vj.length := by
    rw [batchPoints_length hbi hfvi, batchPoints_length hbj hfvj]
    intro hcontra
    exact hne (Nat.eq_of_mul_eq_mul_left hk hcontra)
  unfold distribute_points
  rw [hrs]
  exact mathStack_error_of_ne hvi hvj hvne

/-- Concrete instance for `distribute_points_batch_mismatch`: two batches
with 1 and 2 active cells respectively make the call fail with
`ShapeMismatch`. -/
theorem distribute_points_batch_mismatch_witness :
    0 < 1 ∧
    (mathWhere [([0], (1:ℚ))]).length
      ≠ (mathWhere [([0], (1:ℚ)), ([1], 1)]).length ∧
    distribute_points ⟨[[([0], (1:ℚ))], [([0], (1:ℚ)), ([1], 1)]], some 2⟩
        1 Distribution.center (fun _ _ _ _ => 0)
      = Except.error PyErr.shapeMismatch := by
  refine ⟨Nat.one_pos, by decide, ?_⟩
  exact distribute_points_batch_mismatch
    ⟨[[([0], (1:ℚ))], [([0], (1:ℚ)), ([1], 1)]], some 2⟩
    1 Distribution.center (fun _ _ _ _ => 0)
    Nat.one_pos (by decide) 0 1 [([0], (1:ℚ))] [([0], (1:ℚ)), ([1], 1)]
    (by decide) (by decide) rfl rfl (by decide)

/-- C10: when `staticshape(density)[0]` is `None` (dynamic leading
dimension), `_distribute_points` takes `batch_size = 1`: the result is
exactly the batch-0 point list wrapped as a single-entry stack (stacking a
singleton never fails on its own), so only batch index 0 is processed and
every successful result has exactly one batch entry. -/
theorem distribute_points_dynamic_batch (density : DensityTensor)
    (hdyn : density.staticBatch = none) (k : ℕ) (dist : Distribution)
    (rand : ℕ → ℕ → ℕ → ℕ → ℚ) :
    distribute_points density k dist rand
      = (batchPoints density k dist rand 0).map (fun pts => [pts]) ∧
    ∀ r, distribute_points density k dist rand = Except.ok r →
      r.length = 1 := by
  have h1 : distribute_points density k dist rand
      = (batchPoints density k dist rand 0).map (fun pts => [pts]) := by
    unfold distribute_points
    rw [hdyn]
    cases hf : batchPoints density k dist rand 0 with
    | error e => simp [collectBatches, hf, Except.map, List.range_succ]
    | ok a => simp [collectBatches, hf, mathStack, Except.map, List.range_succ]
  refine ⟨h1, ?_⟩
  intro r hr
  rw [h1] at hr
  cases hf : batchPoints density k dist rand 0 <;> rw [hf] at hr
  · exact absurd hr (by simp [Except.map])
  · simp only [Except.map, Except.ok.injEq] at hr
    rw [← hr]
    rfl

/-- Concrete instance for `distribute_points_dynamic_batch`: one batch of
data with an unknown static leading dimension. -/
theorem distribute_points_dynamic_batch_witness :
    ((⟨[[([0], (1:ℚ))]], none⟩ : DensityTensor).staticBatch = none) ∧
    distribute_points ⟨[[([0], (1:ℚ))]], none⟩ 1 Distribution.center
        (fun _ _ _ _ => 0)
      = (batchPoints ⟨[[([0], (1:ℚ))]], none⟩ 1 Distribution.center
          (fun _ _ _ _ => 0) 0).map (fun pts => [pts]) :=
  ⟨rfl, (distribute_points_dynamic_batch ⟨[[([0], (1:ℚ))]], none⟩ rfl 1
      Distribution.center (fun _ _ _ _ => 0)).1⟩

theorem resolveFields_error_of_missing {F : Type} (app : ConsoleApp F) :
    ∀ (names : List String) (n : String), n ∈ names →
      get_field app n = Except.error PyErr.fieldNotFound →
      ∃ m, resolveFields app names = Except.error m := by
  intro names
  induction names with
  | nil => intro n hn; exact absurd hn (by simp)
  | cons hd tl ih =>
      intro n hn hmiss
      rcases List.mem_cons.mp hn with rfl | hnt
      · refine ⟨n, ?_⟩
        unfold resolveFields
        rw [hmiss]
      · cases hgf : get_field app hd with
        | error e => exact ⟨hd, by unfold resolveFields; rw [hgf]⟩
        | ok v =>
            obtain ⟨m, hm⟩ := ih n hnt hmiss
            exact ⟨m, by unfold resolveFields; rw [hgf, hm]⟩

/-- C9: when `draw` is called with explicit field names and the registry
lookup of one of them fails (`KeyError`, the spec's `FieldNotFound`),
`draw` reports a missing field together with the available field names
(`self.app.fieldnames`) and returns without drawing; `draw` is a total
function, so the `show` command loop continues afterwards. -/
theorem draw_missing_field_reports_and_returns {F : Type}
    (app : ConsoleApp F) (orderedNames : List String)
    (names : List String) (n : String) (hn : n ∈ names)
    (hmiss : get_field app n = Except.error PyErr.fieldNotFound) :
    (∃ m, draw app orderedNames (some names)
        = DrawOutcome.fieldMissing m app.fieldnames) ∧
    ∀ vs, draw app orderedNames (some names) ≠ DrawOutcome.drew vs := by
  obtain ⟨m, hm⟩ := resolveFields_error_of_missing app names n hn hmiss
  constructor
  · refine ⟨m, ?_⟩
    simp only [draw]
    rw [hm]
  · intro vs h
    simp only [draw] at h
    rw [hm] at h
    simp at h

/-- Concrete instance for `draw_missing_field_reports_and_returns`: a
registry holding only "a", asked to draw "b". -/
theorem draw_missing_field_witness :
    ("b" ∈ ["b"]) ∧
    get_field (⟨[("a", true)], ["a"]⟩ : ConsoleApp Bool) "b"
      = Except.error PyErr.fieldNotFound ∧
    ∃ m, draw (⟨[("a", true)], ["a"]⟩ : ConsoleApp Bool) [] (some ["b"])
        = DrawOutcome.fieldMissing m ["a"] :=
  ⟨by simp, rfl,
    (draw_missing_field_reports_and_returns
      (⟨[("a", true)], ["a"]⟩ : ConsoleApp Bool) [] ["b"] "b"
      (by simp) rfl).1⟩
